import Mathlib

set_option autoImplicit false
set_option linter.unnecessarySeqFocus false

/-
  Verification development for the CN_PROJECT LAN collaboration server.

  Shallow embedding of the server-side code:
    * src/server/audio/audio_server.py   (AudioServer.handle_packet sequencing)
    * src/server/video/video_server.py   (header parsing, reassembly, fan-out)
    * src/server/chat/chat_server.py     (unicast, history)
    * src/server/files/file_server.py    (upload loop, file table)
    * src/server/screen/screen_server.py (present-start)
    * src/server/main_server.py          (control-channel read loop)
    * src/common/constants.py, src/common/protocol_definitions.py

  Bytes are modelled as `Nat` values < 256 in `List Nat`; Python dicts as
  association lists; big-endian struct fields via `beNat`/`u32be`/`u64be`.
-/

namespace CN

/-! ### Byte-level helpers (struct.pack / struct.unpack, big endian) -/

/-- Big-endian interpretation of a byte list (as `struct.unpack` does for
the exact field width; callers slice the field first). -/
def beNat (l : List Nat) : Nat := l.foldl (fun a b => a * 256 + b) 0

/-- `struct.pack ">I"`: 4-byte big-endian encoding of a 32-bit value. -/
def u32be (n : Nat) : List Nat :=
  [n / 2 ^ 24 % 256, n / 2 ^ 16 % 256, n / 2 ^ 8 % 256, n % 256]

/-- `struct.pack ">Q"`: 8-byte big-endian encoding of a 64-bit value. -/
def u64be (n : Nat) : List Nat :=
  [n / 2 ^ 56 % 256, n / 2 ^ 48 % 256, n / 2 ^ 40 % 256, n / 2 ^ 32 % 256,
   n / 2 ^ 24 % 256, n / 2 ^ 16 % 256, n / 2 ^ 8 % 256, n % 256]

/-! ### Python dict model: association lists with last-write-wins update -/

section AssocOps

variable {κ : Type} [DecidableEq κ] {α : Type}

/-- `d.get(k)` / `k in d` on a Python dict. -/
def alookup : List (κ × α) → κ → Option α
  | [], _ => none
  | (k, v) :: l, k' => if k = k' then some v else alookup l k'

/-- `d[k] = v` on a Python dict: replace in place if present, else append. -/
def aset : List (κ × α) → κ → α → List (κ × α)
  | [], k', v' => [(k', v')]
  | (k, v) :: l, k', v' =>
      if k = k' then (k', v') :: l else (k, v) :: aset l k' v'

/-- `del d[k]` on a Python dict. -/
def aerase : List (κ × α) → κ → List (κ × α)
  | [], _ => []
  | (k, v) :: l, k' => if k = k' then aerase l k' else (k, v) :: aerase l k'

end AssocOps

/-- `clients.get(uid)` followed by a write when present: the delivery
performed by the various `_send_message` helpers (nothing is sent to a uid
without a control connection). -/
def send_to {μ : Type} (clients : List Nat) (uid : Nat) (m : μ) :
    List (Nat × μ) :=
  if uid ∈ clients then [(uid, m)] else []

/-- A broadcast helper: every connected client receives the message
(chat_server.py `broadcast`, screen_server.py `_broadcast`). -/
def broadcast_all {μ : Type} (clients : List Nat) (m : μ) : List (Nat × μ) :=
  clients.map (fun u => (u, m))

/-! ### Audio server (src/server/audio/audio_server.py) -/

namespace AudioSrv

/-- `ClientInfo` from audio_server.py (volume is a float scalar in the
source; it plays no role in sequencing and is modelled as a rational). -/
structure ClientInfo where
  uid : Nat
  address : String × Nat
  volume : Rat := 1
  muted : Bool := false
  last_packet_time : Nat := 0
  expected_sequence : Nat := 0
  received_packets : Nat := 0
  dropped_packets : Nat := 0
  deriving DecidableEq, Repr

/-- Python `x & 0xFFFFFFFF` on a nonnegative int. -/
def u32mask (n : Nat) : Nat := n % 2 ^ 32

/-- `(seq_uint32 - expected_uint32) & 0xFFFFFFFF` on Python ints:
wraparound subtraction of two masked values. -/
def u32sub (a b : Nat) : Nat := (a % 2 ^ 32 + (2 ^ 32 - b % 2 ^ 32)) % 2 ^ 32

/-- The RFC1982-style diff as the spec words it: `(seq − expected) mod 2³²`. -/
def rfc_diff (seq expected : Nat) : Nat :=
  (((seq : Int) - (expected : Int)) % (2 ^ 32 : Int)).toNat

/-- The known-uid sequencing branch of `AudioServer.handle_packet`
(audio_server.py lines 202-231): updates address and last-packet time, then
classifies the packet by the 32-bit modular diff.  Returns the updated
client record and whether processing continues (the packet is accepted). -/
def seq_update (client : ClientInfo) (seq : Nat) (now : Nat)
    (addr : String × Nat) : ClientInfo × Bool :=
  let c := { client with address := addr, last_packet_time := now }
  let diff := u32sub (u32mask seq) (u32mask c.expected_sequence)
  if diff = 0 then
    (c, false)
  else if diff = 1 then
    ({ c with expected_sequence := u32mask (seq + 1),
              received_packets := c.received_packets + 1 }, true)
  else if 1 < diff ∧ diff ≤ 0x7FFFFFFF then
    ({ c with dropped_packets := c.dropped_packets + (diff - 1),
              expected_sequence := u32mask (seq + 1),
              received_packets := c.received_packets + 1 }, true)
  else
    ({ c with dropped_packets := c.dropped_packets + 1 }, false)

/-- The client-table update of `AudioServer.handle_packet` (lines 200-238):
known uid goes through `seq_update`; an unknown uid is registered with its
expectation reset to `seq + 1`. -/
def handle_packet_clients (clients : List (Nat × ClientInfo)) (uid seq now : Nat)
    (addr : String × Nat) : List (Nat × ClientInfo) × Bool :=
  match alookup clients uid with
  | some c =>
      let (c', accepted) := seq_update c seq now addr
      (aset clients uid c', accepted)
  | none =>
      (aset clients uid
        { uid := uid, address := addr, last_packet_time := now,
          expected_sequence := u32mask (seq + 1), received_packets := 1 }, true)

/-- The 16-byte header parse of `AudioServer.handle_packet` (lines 190-197):
`seq (u32 be) | timestamp-ms (u64 be) | uid (u32 be) | payload`. -/
def parse_audio_header (data : List Nat) : Option (Nat × Nat × Nat × List Nat) :=
  if data.length < 16 then none
  else some (beNat (data.take 4), beNat ((data.drop 4).take 8),
             beNat ((data.drop 12).take 4), data.drop 16)

end AudioSrv

/-! ### Video server (src/server/video/video_server.py) -/

namespace VideoSrv

/-- Resource limits of `VideoServer` (video_server.py lines 74-85). -/
def CHUNK_HEADER_SIZE : Nat := 36
def MAX_FRAMES_PER_CLIENT : Nat := 50
def MAX_FRAME_SIZE : Nat := 10 * 1024 * 1024
def MAX_CHUNKS : Nat := 100
def MAX_CHUNK_SIZE : Nat := 1024 * 1024

/-- `VideoFrameChunk` from video_server.py. -/
structure VideoFrameChunk where
  uid : Nat
  frame_id : Nat
  chunk_idx : Nat
  total_chunks : Nat
  seq : Nat
  timestamp : Nat
  chunk_size : Nat
  data : List Nat
  deriving DecidableEq, Repr

/-- `AssembledFrame` from video_server.py. -/
structure AssembledFrame where
  uid : Nat
  frame_id : Nat
  timestamp : Nat
  data : List Nat
  deriving DecidableEq, Repr

/-- `ClientVideoInfo` from video_server.py; `receive_port` is attached
dynamically in `handle_packet` (counters are initialised to 0 and never
touched by the modelled paths). -/
structure ClientVideoInfo where
  uid : Nat
  address : String × Nat
  receive_port : Nat
  last_packet_time : Nat
  received_frames : Nat := 0
  total_bytes : Nat := 0
  deriving DecidableEq, Repr

/-- `VideoServer._parse_chunk_header` (lines 121-161).  The 36-byte header is
`uid | frame-id | chunk-idx | total-chunks | seq (u32 be each) |
timestamp (u64 be) | chunk-size | receive-port (u32 be each)`.  The Python
checks `chunk_idx < 0` and `chunk_size < 0` are vacuous on the unsigned
unpacked fields and drop out of the Nat model. -/
def parse_chunk_header (data : List Nat) :
    Option (Nat × Nat × Nat × Nat × Nat × Nat × Nat × Nat × List Nat) :=
  if data.length < CHUNK_HEADER_SIZE then none
  else
    let uid := beNat (data.take 4)
    let frame_id := beNat ((data.drop 4).take 4)
    let chunk_idx := beNat ((data.drop 8).take 4)
    let total_chunks := beNat ((data.drop 12).take 4)
    let seq := beNat ((data.drop 16).take 4)
    let timestamp := beNat ((data.drop 20).take 8)
    let chunk_size := beNat ((data.drop 28).take 4)
    let receive_port := beNat ((data.drop 32).take 4)
    let payload := data.drop CHUNK_HEADER_SIZE
    if payload.length ≠ chunk_size then none
    else if total_chunks ≤ 0 ∨ total_chunks > MAX_CHUNKS then none
    else if chunk_idx ≥ total_chunks then none
    else if chunk_size > MAX_CHUNK_SIZE then none
    else some (uid, frame_id, chunk_idx, total_chunks, seq, timestamp,
               chunk_size, receive_port, payload)

/-- One reassembly slot: the tuple
`(chunk_list, total_chunks, chunk_size, remaining_count)` stored in
`chunk_buffers[uid][frame_id]` (remaining is a Python int, hence `Int`). -/
structure FrameBuf where
  slots : List (Option VideoFrameChunk)
  total : Nat
  csize : Nat
  remaining : Int
  deriving DecidableEq, Repr

/-- The per-uid inner dict `chunk_buffers[uid]`, keyed by frame id. -/
abbrev UidBuf := List (Nat × FrameBuf)

/-- `b''.join(c.data for c in chunk_list)` at completion (all slots are
filled there; an empty slot contributes nothing in the model). -/
def joinData (slots : List (Option VideoFrameChunk)) : List Nat :=
  (slots.map (fun o => match o with
    | some c => c.data
    | none => [])).flatten

/-- The common tail of `VideoServer._process_chunk` (lines 199-246): look up
the slot, validate the chunk against the stored parameters, place it,
and on completion emit the assembled frame and delete the slot. -/
def place_chunk (c : VideoFrameChunk) (buf : UidBuf) :
    UidBuf × List AssembledFrame :=
  match alookup buf c.frame_id with
  | none => (buf, [])
  | some fb =>
      if c.total_chunks ≠ fb.total then (buf, [])
      else if c.chunk_size ≠ fb.csize then (buf, [])
      else if c.chunk_idx ≥ fb.total then (buf, [])
      else
        match fb.slots.get? c.chunk_idx with
        | some none =>
            let slots' := fb.slots.set c.chunk_idx (some c)
            let remaining' := fb.remaining - 1
            let buf' := aset buf c.frame_id
              { slots := slots', total := fb.total, csize := fb.csize,
                remaining := remaining' }
            if remaining' = 0 then
              (aerase buf' c.frame_id,
               [{ uid := c.uid, frame_id := c.frame_id,
                  timestamp := c.timestamp, data := joinData slots' }])
            else (buf', [])
        | _ => (buf, [])

/-- `VideoServer._process_chunk` (lines 163-246) acting on the sender's
inner buffer `chunk_buffers[chunk.uid]` (the only key the method touches).
A first-seen frame id passes the per-client count and frame-size caps and
allocates a slot vector of `total_chunks` `None`s. -/
def process_chunk (c : VideoFrameChunk) (buf : UidBuf) :
    UidBuf × List AssembledFrame :=
  match alookup buf c.frame_id with
  | some _ => place_chunk c buf
  | none =>
      if buf.length ≥ MAX_FRAMES_PER_CLIENT then (buf, [])
      else if c.total_chunks * c.chunk_size > MAX_FRAME_SIZE then (buf, [])
      else
        place_chunk c (aset buf c.frame_id
          { slots := List.replicate c.total_chunks none,
            total := c.total_chunks, csize := c.chunk_size,
            remaining := (c.total_chunks : Int) })

/-- Sequential processing of a list of datagram chunks. -/
def process_list (cs : List VideoFrameChunk) (buf : UidBuf) :
    UidBuf × List AssembledFrame :=
  match cs with
  | [] => (buf, [])
  | c :: cs' =>
      let (buf', out) := process_chunk c buf
      let (buf'', outs) := process_list cs' buf'
      (buf'', out ++ outs)

/-- The client-table update of `VideoServer.handle_packet` (lines 266-311):
an invalid header drops the datagram without touching the table; otherwise
the uid record is created or refreshed with the advertised receive port and
the chunk goes to reassembly. -/
def handle_packet (clients : List (Nat × ClientVideoInfo)) (data : List Nat)
    (addr : String × Nat) (now : Nat) :
    List (Nat × ClientVideoInfo) × Option VideoFrameChunk :=
  match parse_chunk_header data with
  | none => (clients, none)
  | some (uid, frame_id, chunk_idx, total_chunks, seq, timestamp, chunk_size,
          receive_port, payload) =>
      let clients' :=
        match alookup clients uid with
        | some c =>
            aset clients uid
              { c with address := addr, receive_port := receive_port,
                       last_packet_time := now }
        | none =>
            aset clients uid
              { uid := uid, address := addr, receive_port := receive_port,
                last_packet_time := now }
      (clients',
       some { uid := uid, frame_id := frame_id, chunk_idx := chunk_idx,
              total_chunks := total_chunks, seq := seq,
              timestamp := timestamp, chunk_size := chunk_size,
              data := payload })

/-- The per-frame loop body of `VideoServer._broadcast_worker`
(lines 331-356): every registered client except the sender is sent
`uid (u32 be) | timestamp-ms (u64 be) | jpeg-bytes` at
`(client-source-ip, client-advertised-receive-port)`. -/
def broadcast_frame (f : AssembledFrame) (clients : List ClientVideoInfo) :
    List ((String × Nat) × List Nat) :=
  match clients with
  | [] => []
  | c :: rest =>
      if c.uid = f.uid then broadcast_frame f rest
      else ((c.address.1, c.receive_port), u32be f.uid ++ u64be f.timestamp ++ f.data)
             :: broadcast_frame f rest

/-- The registration datagram the repository's own video client emits
(src/client/video/video_client.py `_register_receive_port`):
`b"VGPR" | uid (u32 be) | receive-port (u32 be)`, 12 bytes. -/
def registration_datagram (uid port : Nat) : List Nat :=
  [86, 71, 80, 82] ++ u32be uid ++ u32be port

/-- The K chunks of one frame as the reassembly claim quantifies them:
consistent uid, frame id, total-chunks, chunk-size and timestamp, with the
payload determined by the chunk index. -/
def chunk_matches (uid fid K size ts : Nat) (ps : List (List Nat))
    (c : VideoFrameChunk) : Prop :=
  c.uid = uid ∧ c.frame_id = fid ∧ c.total_chunks = K ∧ c.chunk_size = size ∧
  c.timestamp = ts ∧ c.data = ps.getD c.chunk_idx []

instance chunk_matches_dec (uid fid K size ts : Nat) (ps : List (List Nat))
    (c : VideoFrameChunk) : Decidable (chunk_matches uid fid K size ts ps c) := by
  unfold chunk_matches
  infer_instance

/-- Invariant of a partially filled slot vector: slots whose index was
received hold a chunk with the right payload, the rest are still `None`. -/
def slots_ok (K : Nat) (ps : List (List Nat)) (done : List Nat)
    (slots : List (Option VideoFrameChunk)) : Prop :=
  slots.length = K ∧
  ∀ i, i < K →
    (i ∈ done → ∃ c, slots.get? i = some (some c) ∧ c.data = ps.getD i []) ∧
    (i ∉ done → slots.get? i = some none)

end VideoSrv

/-! ### POSIX path model (pathlib / os.path, for the upload path) -/

namespace PyPath

/-- A `pathlib.PurePosixPath`: anchored or not, plus the parsed segments. -/
structure PPath where
  absolute : Bool
  parts : List String
  deriving DecidableEq, Repr

/-- Split a character sequence at `/` separators. -/
def splitSeg : List Char → List (List Char)
  | [] => [[]]
  | c :: cs =>
    match splitSeg cs with
    | [] => [[]]
    | seg :: rest => if c = '/' then [] :: seg :: rest else (c :: seg) :: rest

/-- Segment split of a POSIX path string: pathlib drops empty segments and
single dots. -/
def splitParts (s : String) : List String :=
  ((splitSeg s.data).filter
    (fun l => l ≠ [] && l ≠ ['.'])).map (fun l => String.mk l)

/-- Parse a path string the way `pathlib.Path(s)` does. -/
def parsePath (s : String) : PPath :=
  { absolute := s.data.head? = some '/', parts := splitParts s }

/-- `Path.__truediv__` with a string right-hand side: an absolute right side
replaces the left entirely, otherwise the segments are appended —
no `..` resolution happens. -/
def pdiv (p : PPath) (s : String) : PPath :=
  let q := parsePath s
  if q.absolute then q else { absolute := p.absolute, parts := p.parts ++ q.parts }

/-- `os.path.basename`: the text after the final slash. -/
def basename (s : String) : String :=
  String.mk (((splitSeg s.data).getLast?).getD [])

/-- Resolve `..` segments (what the OS does when the path is opened),
to exhibit where a traversal path actually lands. -/
def normalizeParts (parts : List String) : List String :=
  parts.foldl
    (fun acc seg =>
      if seg = ".." then
        if acc ≠ [] && acc.getLast? ≠ some ".." then acc.dropLast
        else acc ++ [seg]
      else acc ++ [seg]) []

end PyPath

/-! ### File server (src/server/files/file_server.py) -/

namespace FileSrv

/-- `CHUNK_SIZE` from src/common/constants.py. -/
def CHUNK_SIZE : Nat := 8192

/-- The `session_info` dict built by `FileServer.handle_file_offer`. -/
structure UploadSession where
  fid : String
  filename : String
  size : Nat
  uploader : String
  uid : Nat
  port : Nat
  deriving DecidableEq, Repr

/-- The `file_metadata` dict registered in `self.files` on success. -/
structure FileMeta where
  fid : String
  filename : String
  size : Nat
  uploader : String
  uploader_uid : Nat
  path : PyPath.PPath
  uploaded_at : String
  deriving DecidableEq, Repr

/-- `create_file_available_message` and the error reply, as far as the
upload path emits them. -/
inductive FSMsg
  | file_available (fid filename : String) (size : Nat) (uploader : String)
  | error (message : String)
  deriving DecidableEq, Repr

/-- The storage path the code uses: `file_path = self.upload_dir / filename`
(file_server.py line 190) — the client-supplied filename is joined verbatim,
with no sanitization. -/
def upload_path_code (upload_dir filename : String) : PyPath.PPath :=
  PyPath.pdiv (PyPath.parsePath upload_dir) filename

/-- Modelled from the spec: the storage path the claim describes,
`path.join(upload-dir, basename(filename))` with directory components
stripped.  Stated for comparison with `upload_path_code`. -/
def upload_path_claim (upload_dir filename : String) : PyPath.PPath :=
  PyPath.pdiv (PyPath.parsePath upload_dir) (PyPath.basename filename)

/-- The receive loop of `FileServer.handle_file_upload` (lines 194-210):
repeatedly read `min(CHUNK_SIZE, expected - received)` bytes; an empty read
(peer closed) breaks out.  The stream is the finite byte sequence the
uploader's TCP connection delivers; a read returns the next
`min(requested, available)` bytes of it.  Returns
`(bytes_received, file contents written)`. -/
def upload_loop (expected : Nat) (stream : List Nat) (received : Nat)
    (content : List Nat) : Nat × List Nat :=
  if received < expected then
    if stream.take (min CHUNK_SIZE (expected - received)) = [] then
      (received, content)
    else
      upload_loop expected (stream.drop (min CHUNK_SIZE (expected - received)))
        (received + (stream.take (min CHUNK_SIZE (expected - received))).length)
        (content ++ stream.take (min CHUNK_SIZE (expected - received)))
  else (received, content)
termination_by stream.length
decreasing_by
  rename_i hlt hne
  simp only [List.length_drop]
  have hs : stream ≠ [] := by
    rintro rfl
    simp at hne
  have hk : 1 ≤ min CHUNK_SIZE (expected - received) := by
    simp only [le_min_iff]
    exact ⟨by simp [CHUNK_SIZE], by omega⟩
  have hpos : 0 < stream.length := List.length_pos.mpr hs
  omega

/-- `FileServer.handle_file_upload` (lines 179-248): stream bytes into
`upload_dir / filename`; on receiving exactly the offered size, register
the file and broadcast `file-available`; on a short read delete the partial
file, register nothing, broadcast nothing.  Result:
(final on-disk content at the upload path if any, file table, broadcasts). -/
def handle_file_upload (upload_dir : String) (sess : UploadSession)
    (stream : List Nat) (files : List (String × FileMeta)) (now : String) :
    Option (List Nat) × List (String × FileMeta) × List FSMsg :=
  let r := upload_loop sess.size stream 0 []
  if r.1 = sess.size then
    (some r.2,
     aset files sess.fid
       { fid := sess.fid, filename := sess.filename, size := r.1,
         uploader := sess.uploader, uploader_uid := sess.uid,
         path := upload_path_code upload_dir sess.filename,
         uploaded_at := now },
     [FSMsg.file_available sess.fid sess.filename r.1 sess.uploader])
  else
    (none, files, [])

end FileSrv

/-! ### Chat server (src/server/chat/chat_server.py) -/

namespace ChatSrv

/-- `MAX_CHAT_HISTORY` from src/common/constants.py. -/
def MAX_CHAT_HISTORY : Nat := 500

/-- A participant record (`self.participants[uid]`). -/
structure Participant where
  uid : Nat
  username : String
  joined_at : String
  deriving DecidableEq, Repr

/-- A record appended to the `chat_history` ring: the stamped dicts built
in `handle_chat`, `handle_broadcast` and `handle_unicast`. -/
inductive HistMsg
  | chat (uid : Nat) (username text timestamp : String)
  | broadcast (uid : Nat) (username text timestamp : String)
  | unicast (from_uid : Nat) (from_username : String) (to_uid : Nat)
      (to_username text timestamp : String)
  deriving DecidableEq, Repr

/-- Control-channel replies the modelled chat handlers emit. -/
inductive ChatMsg
  | delivered (m : HistMsg)
  | unicast_sent (to_uid : Nat) (to_username : String)
  | history (messages : List HistMsg) (count : Nat)
  | error (message : String)
  deriving DecidableEq, Repr

/-- Chat-server state touched by the modelled handlers. -/
structure ChatState where
  participants : List (Nat × Participant)
  chat_history : List HistMsg
  deriving DecidableEq, Repr

/-- `deque(maxlen=MAX_CHAT_HISTORY).append`: appending to a full ring evicts
from the left. -/
def ring_append (hist : List HistMsg) (m : HistMsg) : List HistMsg :=
  if hist.length < MAX_CHAT_HISTORY then hist ++ [m]
  else hist.drop (hist.length + 1 - MAX_CHAT_HISTORY) ++ [m]

/-- `self.participants.get(uid, {}).get('username', 'unknown')`. -/
def username_of (participants : List (Nat × Participant)) (uid : Nat) : String :=
  ((alookup participants uid).map Participant.username).getD "unknown"

/-- Python truthiness of `data.get('target_uid')`: an absent field or the
number 0 is falsy. -/
def py_falsy : Option Nat → Bool
  | none => true
  | some 0 => true
  | some _ => false

/-- `ChatServer.handle_unicast` (lines 155-195).  A falsy target yields the
missing-target error; an unknown target yields the not-found error; else
the stamped unicast record is stored in the ring, delivered to the target,
and a `unicast_sent` confirmation goes back to the sender. -/
def handle_unicast (uid : Nat) (target_uid : Option Nat) (text : String)
    (now : String) (st : ChatState) (clients : List Nat) :
    ChatState × List (Nat × ChatMsg) :=
  let username := username_of st.participants uid
  if py_falsy target_uid then
    (st, send_to clients uid (ChatMsg.error "Missing target_uid for unicast"))
  else
    let t := target_uid.getD 0
    match alookup st.participants t with
    | none =>
        (st, send_to clients uid
          (ChatMsg.error ("User with uid=" ++ toString t ++ " not found")))
    | some target =>
        let m := HistMsg.unicast uid username t target.username text now
        ({ st with chat_history := ring_append st.chat_history m },
         send_to clients t (ChatMsg.delivered m) ++
         send_to clients uid (ChatMsg.unicast_sent t target.username))

/-- `ChatServer.handle_get_history` (lines 202-211): a copy of the whole
ring is sent to the requesting client, with its length as `count` —
no filtering by requester. -/
def handle_get_history (uid : Nat) (st : ChatState) (clients : List Nat) :
    ChatState × List (Nat × ChatMsg) :=
  (st, send_to clients uid
    (ChatMsg.history st.chat_history st.chat_history.length))

end ChatSrv

/-! ### Control-plane read loop (src/server/main_server.py) -/

namespace ControlSrv

/-- A Python JSON value as `json.loads` produces it. -/
inductive PyJson
  | null
  | boolean (b : Bool)
  | num (n : Int)
  | str (s : String)
  | arr (elems : List PyJson)
  | obj (fields : List (String × PyJson))

/-- Outcome of `data.decode('utf-8').strip()` followed by `json.loads`:
either a `UnicodeDecodeError` (invalid UTF-8), a `json.JSONDecodeError`
(malformed JSON), or a parsed value. -/
inductive LineDecode
  | decodeError
  | jsonError
  | ok (j : PyJson)

/-- What one iteration of the `handle_client` read loop does with a line. -/
inductive ControlAction
  | replyError (message : String)
  | ignore
  | dispatch (t : String)
  | dispatchClose
  deriving DecidableEq, Repr

/-- The inbound `type` strings `handle_client` dispatches on
(the `MessageTypes` constants reachable from the dispatch chain). -/
def known_types : List String :=
  ["login", "heartbeat", "chat", "broadcast", "unicast", "get_history",
   "file_offer", "file_request", "present_start", "present_stop"]

/-- `message.get('type', '')`: only objects support `.get`; any other JSON
value raises `AttributeError`, which the blanket `except Exception` in the
loop swallows. -/
def py_get_type : PyJson → Option PyJson
  | .obj fields => some ((alookup fields "type").getD (.str ""))
  | _ => none

/-- The validity test `isinstance(msg_type, str) and len(msg_type) > 0`
applied to the extracted `type` value. -/
def is_valid_msg_type : PyJson → Bool
  | .str s => s.length != 0
  | _ => false

/-- One iteration of `CollaborationServer.handle_client`s read loop
(main_server.py lines 118-180) on a line of `lineLen` bytes that decodes to
`dec`: oversized lines and `JSONDecodeError` get an `error` reply; an
invalid or unknown `type` is logged and skipped with no reply; a known type
is dispatched (only `logout` breaks the loop).  Every action except
`dispatchClose` leaves the connection open. -/
def control_step (lineLen : Nat) (dec : LineDecode) : ControlAction :=
  if lineLen > 1024 * 1024 then ControlAction.replyError "Message too large"
  else
    match dec with
    | .jsonError => ControlAction.replyError "Malformed JSON"
    | .decodeError => ControlAction.ignore
    | .ok j =>
        match py_get_type j with
        | none => ControlAction.ignore
        | some t =>
            match t with
            | .str s =>
                if s.length = 0 then ControlAction.ignore
                else if s ∈ known_types then ControlAction.dispatch s
                else if s = "logout" then ControlAction.dispatchClose
                else ControlAction.ignore
            | _ => ControlAction.ignore

/-- Whether the read loop continues after the action (the connection is
kept open inside `handle_client`; only `logout` breaks). -/
def action_keeps_connection : ControlAction → Bool
  | .dispatchClose => false
  | _ => true

end ControlSrv

/-! ### Screen-share server (src/server/screen/screen_server.py) -/

namespace ScreenSrv

/-- The presentation dict stored in `self.presentations[uid]` (runtime
handles — writers, tasks, socket servers — are not data and are omitted). -/
structure Presentation where
  username : String
  topic : String
  presenter_port : Nat
  viewer_port : Nat
  deriving DecidableEq, Repr

/-- Screen-server state touched by `handle_present_start`. -/
structure ScreenState where
  presentations : List (Nat × Presentation)
  next_ephemeral_port : Nat
  participants : List (Nat × String)
  deriving DecidableEq, Repr

/-- The control messages the present-start path can emit
(src/common/protocol_definitions.py). -/
inductive ScreenMsg
  | error (message : String)
  | screen_share_ports (presenter_port viewer_port : Nat)
  | present_start (msg_type : String) (uid : Nat) (username topic : String)
      (viewer_port : Nat)
  deriving DecidableEq, Repr

/-- The attribute table of `class MessageTypes` in src/common/constants.py
(lines 41-69), exactly the names the class body defines.  Looking up any
other name raises `AttributeError` in Python — modelled as `none`. -/
def messageTypesAttr : String → Option String
  | "LOGIN" => some "login"
  | "HEARTBEAT" => some "heartbeat"
  | "CHAT" => some "chat"
  | "BROADCAST" => some "broadcast"
  | "UNICAST" => some "unicast"
  | "GET_HISTORY" => some "get_history"
  | "FILE_OFFER" => some "file_offer"
  | "FILE_REQUEST" => some "file_request"
  | "PRESENT_START" => some "present_start"
  | "PRESENT_STOP" => some "present_stop"
  | "LOGOUT" => some "logout"
  | "LOGIN_SUCCESS" => some "login_success"
  | "PARTICIPANT_LIST" => some "participant_list"
  | "HISTORY" => some "history"
  | "USER_JOINED" => some "user_joined"
  | "USER_LEFT" => some "user_left"
  | "HEARTBEAT_ACK" => some "heartbeat_ack"
  | "FILE_UPLOAD_PORT" => some "file_upload_port"
  | "FILE_DOWNLOAD_PORT" => some "file_download_port"
  | "FILE_AVAILABLE" => some "file_available"
  | "SCREEN_SHARE_PORTS" => some "screen_share_ports"
  | "UNICAST_SENT" => some "unicast_sent"
  | "ERROR" => some "error"
  | _ => none

/-- `create_present_start_broadcast_message` (protocol_definitions.py lines
285-295): reads `MessageTypes.PRESENT_START_BROADCAST`, an attribute the
class never defines, so building the message raises `AttributeError`
(`none`) instead of producing a broadcast. -/
def create_present_start_broadcast_message (uid : Nat)
    (username topic : String) (viewer_port : Nat) : Option ScreenMsg :=
  (messageTypesAttr "PRESENT_START_BROADCAST").map
    (fun t => ScreenMsg.present_start t uid username topic viewer_port)

/-- `self.participants.get(uid, {}).get('username', f'user_{uid}')`. -/
def get_username (participants : List (Nat × String)) (uid : Nat) : String :=
  (alookup participants uid).getD ("user_" ++ toString uid)

/-- `ScreenServer.handle_present_start` (screen_server.py lines 35-119).
A duplicate presenter is refused with an error.  Otherwise two ephemeral
ports are allocated and the presentation is recorded; inside the `try`
block the listeners start, the `screen_share_ports` reply goes to the
presenter, and then `create_present_start_broadcast_message` raises
`AttributeError`; the `except` branch removes the presentation again and
sends a failure error to the presenter.  No broadcast is ever sent. -/
def handle_present_start (uid : Nat) (topic? : Option String)
    (st : ScreenState) (clients : List Nat) :
    ScreenState × List (Nat × ScreenMsg) :=
  let username := get_username st.participants uid
  let topic := topic?.getD "Screen Share"
  if (alookup st.presentations uid).isSome then
    (st, send_to clients uid
      (ScreenMsg.error "You already have an active presentation"))
  else
    let presenter_port := st.next_ephemeral_port
    let viewer_port := st.next_ephemeral_port + 1
    let st1 : ScreenState :=
      { st with
        presentations := aset st.presentations uid
          { username := username, topic := topic,
            presenter_port := presenter_port, viewer_port := viewer_port },
        next_ephemeral_port := st.next_ephemeral_port + 2 }
    match create_present_start_broadcast_message uid username topic viewer_port with
    | some m =>
        (st1,
         send_to clients uid
           (ScreenMsg.screen_share_ports presenter_port viewer_port) ++
         broadcast_all clients m)
    | none =>
        ({ st1 with presentations := aerase st1.presentations uid },
         send_to clients uid
           (ScreenMsg.screen_share_ports presenter_port viewer_port) ++
         send_to clients uid
           (ScreenMsg.error "Failed to start screen sharing: AttributeError"))

end ScreenSrv

/-! ### Association-list lemmas -/

section AssocLemmas

variable {κ : Type} [DecidableEq κ] {α : Type}

theorem alookup_aset_self (l : List (κ × α)) (k : κ) (v : α) :
    alookup (aset l k v) k = some v := by
  induction l with
  | nil => simp [aset, alookup]
  | cons p l ih =>
      obtain ⟨k', v'⟩ := p
      by_cases h : k' = k <;> simp [aset, alookup, h, ih]

theorem alookup_aset_ne (l : List (κ × α)) (k k' : κ) (v : α) (h : k ≠ k') :
    alookup (aset l k v) k' = alookup l k' := by
  induction l with
  | nil => simp [aset, alookup, h]
  | cons p l ih =>
      obtain ⟨k₀, v₀⟩ := p
      by_cases h₀ : k₀ = k
      · subst h₀
        simp [aset, alookup, h]
      · simp [aset, alookup, h₀, ih]

theorem aset_aset (l : List (κ × α)) (k : κ) (v w : α) :
    aset (aset l k v) k w = aset l k w := by
  induction l with
  | nil => simp [aset]
  | cons p l ih =>
      obtain ⟨k₀, v₀⟩ := p
      by_cases h₀ : k₀ = k <;> simp [aset, h₀, ih]

theorem aerase_aset_self (l : List (κ × α)) (k : κ) (v : α) :
    aerase (aset l k v) k = aerase l k := by
  induction l with
  | nil => simp [aset, aerase]
  | cons p l ih =>
      obtain ⟨k₀, v₀⟩ := p
      by_cases h₀ : k₀ = k <;> simp [aset, aerase, h₀, ih]

theorem aerase_of_alookup_none (l : List (κ × α)) (k : κ)
    (h : alookup l k = none) : aerase l k = l := by
  induction l with
  | nil => rfl
  | cons p l ih =>
      obtain ⟨k₀, v₀⟩ := p
      by_cases h₀ : k₀ = k
      · simp [alookup, h₀] at h
      · simp [alookup, h₀] at h
        simp [aerase, h₀, ih h]

end AssocLemmas

/-! ### C4 — audio per-sender sequencing -/

theorem rfc_diff_eq_u32sub (a b : Nat) :
    AudioSrv.rfc_diff a b = AudioSrv.u32sub a b := by
  unfold AudioSrv.rfc_diff AudioSrv.u32sub
  omega

theorem rfc_diff_lt (a b : Nat) : AudioSrv.rfc_diff a b < 2 ^ 32 := by
  unfold AudioSrv.rfc_diff
  omega

/-- C4 (amended): for an audio datagram from an already-known uid, with
diff = (seq − expected) mod 2³²: diff 0 is dropped as a duplicate with no
counters changed; diff 1 is accepted in order; 1 < diff < 2³¹ is accepted
as a forward gap counting diff−1 drops and advancing expected to seq+1;
and every diff ≥ 2³¹ is dropped as backward/old, counting one drop.
(The claim said the forward-gap window reaches diff = 2³¹ inclusive;
the code stops at 2³¹ − 1 = 0x7FFFFFFF.) -/
theorem audio_sequencing_cases (c : AudioSrv.ClientInfo) (seq now : Nat)
    (addr : String × Nat) (hseq : seq < 2 ^ 32)
    (hexp : c.expected_sequence < 2 ^ 32) :
    (AudioSrv.rfc_diff seq c.expected_sequence = 0 →
       AudioSrv.seq_update c seq now addr =
         ({ c with address := addr, last_packet_time := now }, false)) ∧
    (AudioSrv.rfc_diff seq c.expected_sequence = 1 →
       AudioSrv.seq_update c seq now addr =
         ({ c with address := addr, last_packet_time := now,
                   expected_sequence := AudioSrv.u32mask (seq + 1),
                   received_packets := c.received_packets + 1 }, true)) ∧
    (1 < AudioSrv.rfc_diff seq c.expected_sequence ∧
       AudioSrv.rfc_diff seq c.expected_sequence < 2 ^ 31 →
       AudioSrv.seq_update c seq now addr =
         ({ c with address := addr, last_packet_time := now,
                   dropped_packets := c.dropped_packets +
                     (AudioSrv.rfc_diff seq c.expected_sequence - 1),
                   expected_sequence := AudioSrv.u32mask (seq + 1),
                   received_packets := c.received_packets + 1 }, true)) ∧
    (2 ^ 31 ≤ AudioSrv.rfc_diff seq c.expected_sequence →
       AudioSrv.seq_update c seq now addr =
         ({ c with address := addr, last_packet_time := now,
                   dropped_packets := c.dropped_packets + 1 }, false)) := by
  have hm1 : AudioSrv.u32mask seq = seq := Nat.mod_eq_of_lt hseq
  have hm2 : AudioSrv.u32mask c.expected_sequence = c.expected_sequence :=
    Nat.mod_eq_of_lt hexp
  have hd : AudioSrv.u32sub seq c.expected_sequence =
      AudioSrv.rfc_diff seq c.expected_sequence :=
    (rfc_diff_eq_u32sub seq c.expected_sequence).symm
  refine ⟨fun h => ?_, fun h => ?_, fun h => ?_, fun h => ?_⟩ <;>
    simp only [AudioSrv.seq_update, hm1, hm2, hd]
  · rw [if_pos (by omega)]
  · rw [if_neg (by omega), if_pos (by omega)]
  · rw [if_neg (by omega), if_neg (by omega), if_pos (by omega)]
  · rw [if_neg (by omega), if_neg (by omega), if_neg (by omega)]

/-- C4 witness: a concrete forward gap (expected 7, seq 9, diff 2) is
accepted with one counted drop. -/
theorem audio_sequencing_cases_witness :
    AudioSrv.seq_update
      { uid := 1, address := ("10.0.0.1", 5000), expected_sequence := 7,
        received_packets := 3, dropped_packets := 2 } 9 100 ("10.0.0.2", 6000) =
      ({ uid := 1, address := ("10.0.0.2", 6000), last_packet_time := 100,
         expected_sequence := 10, received_packets := 4,
         dropped_packets := 3 }, true) := by
  have h := audio_sequencing_cases
    { uid := 1, address := ("10.0.0.1", 5000), expected_sequence := 7,
      received_packets := 3, dropped_packets := 2 } 9 100 ("10.0.0.2", 6000)
    (by decide) (by decide)
  have h3 := h.2.2.1 (by decide)
  simpa using h3

/-- C4 counterexample: at diff exactly 2³¹ (expected 0, seq 2³¹) the claim
predicts a forward-gap accept with 2³¹ − 1 counted drops; the code drops the
packet as backward and counts a single drop. -/
theorem audio_sequencing_diff_2pow31 :
    AudioSrv.rfc_diff (2 ^ 31) 0 = 2 ^ 31 ∧
    AudioSrv.seq_update
      { uid := 1, address := ("127.0.0.1", 40000) } (2 ^ 31) 5
      ("127.0.0.1", 40000) =
      ({ uid := 1, address := ("127.0.0.1", 40000), last_packet_time := 5,
         dropped_packets := 1 }, false) := by
  constructor
  · decide
  · decide

/-! ### C5 — video chunk-header validation -/

/-- C5 (amended): a video ingress datagram is accepted by
`_parse_chunk_header` exactly when it is at least 36 bytes long, its payload
length equals the declared chunk-size, total-chunks lies in (0, 100],
chunk-idx lies in [0, total-chunks), and chunk-size lies in [0, 1 MiB] —
chunk-size 0 with an empty payload is accepted, because the lower-bound
check `chunk_size < 0` is vacuous on the unsigned field. -/
theorem video_header_validation (data : List Nat) :
    (VideoSrv.parse_chunk_header data).isSome = true ↔
      (VideoSrv.CHUNK_HEADER_SIZE ≤ data.length ∧
       (data.drop VideoSrv.CHUNK_HEADER_SIZE).length =
         beNat ((data.drop 28).take 4) ∧
       0 < beNat ((data.drop 12).take 4) ∧
       beNat ((data.drop 12).take 4) ≤ VideoSrv.MAX_CHUNKS ∧
       beNat ((data.drop 8).take 4) < beNat ((data.drop 12).take 4) ∧
       beNat ((data.drop 28).take 4) ≤ VideoSrv.MAX_CHUNK_SIZE) := by
  simp only [VideoSrv.parse_chunk_header, VideoSrv.CHUNK_HEADER_SIZE,
    VideoSrv.MAX_CHUNKS, VideoSrv.MAX_CHUNK_SIZE]
  split_ifs with h1 h2 h3 h4 h5 <;>
    simp only [Option.isSome_none, Option.isSome_some, Bool.false_eq_true,
      false_iff, true_iff, List.length_drop, not_lt, gt_iff_lt, not_le,
      not_or, ne_eq] at * <;>
    omega

/-- C5 counterexample: the 36-byte datagram declaring chunk-size 0 (with an
empty payload, total-chunks 1, chunk-idx 0) passes header validation — the
claim says any datagram declaring chunk-size 0 is dropped. -/
theorem video_header_chunk_size_zero_accepted :
    VideoSrv.parse_chunk_header
      (u32be 1 ++ u32be 1 ++ u32be 0 ++ u32be 1 ++ u32be 0 ++ u64be 0 ++
       u32be 0 ++ u32be 0) =
      some (1, 1, 0, 1, 0, 0, 0, 0, []) := by
  rfl

/-- C5 witness: a well-formed 37-byte datagram (one payload byte, declared
chunk-size 1, total-chunks 1, chunk-idx 0) satisfies the validation
conditions and is accepted. -/
theorem video_header_validation_witness :
    (VideoSrv.parse_chunk_header
      (u32be 1 ++ u32be 1 ++ u32be 0 ++ u32be 1 ++ u32be 0 ++ u64be 0 ++
       u32be 1 ++ u32be 0 ++ [255])).isSome = true :=
  (video_header_validation
    (u32be 1 ++ u32be 1 ++ u32be 0 ++ u32be 1 ++ u32be 0 ++ u64be 0 ++
     u32be 1 ++ u32be 0 ++ [255])).mpr (by decide)

/-! ### C3 — video registration datagrams -/

/-- C3: the repository's video client advertises its receive port with a
12-byte `"VGPR"` registration datagram, but `VideoServer.handle_packet` has
no registration branch: any datagram shorter than the 36-byte chunk header
is rejected by `_parse_chunk_header`, so a registration datagram never
creates or updates a video-client record (the claim says it does; the
client table is returned unchanged for every such datagram). -/
theorem video_registration_ignored (uid port now : Nat)
    (clients : List (Nat × VideoSrv.ClientVideoInfo)) (addr : String × Nat) :
    (VideoSrv.registration_datagram uid port).length = 12 ∧
    VideoSrv.parse_chunk_header (VideoSrv.registration_datagram uid port) =
      none ∧
    VideoSrv.handle_packet clients (VideoSrv.registration_datagram uid port)
      addr now = (clients, none) := by
  have hlen : (VideoSrv.registration_datagram uid port).length = 12 := by
    simp [VideoSrv.registration_datagram, u32be]
  have hparse :
      VideoSrv.parse_chunk_header (VideoSrv.registration_datagram uid port) =
        none := by
    unfold VideoSrv.parse_chunk_header
    rw [if_pos]
    rw [hlen]
    simp [VideoSrv.CHUNK_HEADER_SIZE]
  refine ⟨hlen, hparse, ?_⟩
  unfold VideoSrv.handle_packet
  rw [hparse]

/-- C3 failing-input evaluation: the concrete registration datagram for
uid 1, receive-port 5000 leaves an empty client table empty — the uid never
becomes a broadcast target. -/
theorem video_registration_concrete_drop :
    VideoSrv.handle_packet [] (VideoSrv.registration_datagram 1 5000)
      ("10.0.0.5", 43210) 100 = ([], none) := by
  rfl


/-! ### C8 — frame reassembly and sender-excluded fan-out -/

namespace VideoSrv

theorem slots_ok_replicate (K : Nat) (ps : List (List Nat)) :
    slots_ok K ps [] (List.replicate K none) := by
  refine ⟨List.length_replicate _ _, fun i hi => ⟨fun hmem => absurd hmem (List.not_mem_nil i), fun _ => ?_⟩⟩
  simp [List.get?_eq_getElem?, List.getElem?_replicate, hi]

theorem slots_ok_set (K : Nat) (ps : List (List Nat)) (done : List Nat)
    (slots : List (Option VideoFrameChunk)) (i : Nat) (c : VideoFrameChunk)
    (h : slots_ok K ps done slots) (hi : i < K) (hc : c.data = ps.getD i []) :
    slots_ok K ps (i :: done) (slots.set i (some c)) := by
  obtain ⟨hlen, hslot⟩ := h
  refine ⟨by simp [hlen], fun j hj => ⟨fun hmem => ?_, fun hnmem => ?_⟩⟩
  · by_cases hij : i = j
    · subst hij
      refine ⟨c, ?_, hc⟩
      simp [List.get?_eq_getElem?, List.getElem?_set, hlen, hi]
    · rcases (List.mem_cons.mp hmem) with h' | h'
      · exact absurd h'.symm hij
      · obtain ⟨c', hc', hd'⟩ := (hslot j hj).1 h'
        refine ⟨c', ?_, hd'⟩
        rw [List.get?_eq_getElem?] at hc' ⊢
        rw [List.getElem?_set]
        simp [hij]
        exact hc'
  · have hij : i ≠ j := fun h' => hnmem (h' ▸ List.mem_cons_self i done)
    have hjn : j ∉ done := fun h' => hnmem (List.mem_cons_of_mem i h')
    have := (hslot j hj).2 hjn
    rw [List.get?_eq_getElem?] at this ⊢
    rw [List.getElem?_set]
    simp [hij]
    exact this

theorem joinData_complete (K : Nat) (ps : List (List Nat)) (done : List Nat)
    (slots : List (Option VideoFrameChunk)) (hps : ps.length = K)
    (h : slots_ok K ps done slots) (hcov : ∀ i, i < K → i ∈ done) :
    joinData slots = ps.flatten := by
  obtain ⟨hlen, hslot⟩ := h
  unfold joinData
  congr 1
  apply List.ext_getElem?
  intro n
  rw [List.getElem?_map]
  by_cases hn : n < K
  · obtain ⟨c, hc, hd⟩ := (hslot n hn).1 (hcov n hn)
    rw [List.get?_eq_getElem?] at hc
    rw [hc]
    show some c.data = ps[n]?
    have hnp : n < ps.length := by omega
    rw [hd, List.getElem?_eq_getElem hnp]
    congr 1
    exact List.getD_eq_getElem ps [] hnp
  · have h1 : slots[n]? = none := by
      rw [List.getElem?_eq_none_iff]
      omega
    have h2 : ps[n]? = none := by
      rw [List.getElem?_eq_none_iff]
      omega
    rw [h1, h2]
    rfl

theorem place_chunk_step (c : VideoFrameChunk) (buf : UidBuf) (fb : FrameBuf)
    (hlook : alookup buf c.frame_id = some fb)
    (ht : c.total_chunks = fb.total) (hcs : c.chunk_size = fb.csize)
    (hidx : c.chunk_idx < fb.total)
    (hslot : fb.slots.get? c.chunk_idx = some none) :
    place_chunk c buf =
      if fb.remaining - 1 = 0 then
        (aerase (aset buf c.frame_id
           { slots := fb.slots.set c.chunk_idx (some c), total := fb.total,
             csize := fb.csize, remaining := fb.remaining - 1 }) c.frame_id,
         [{ uid := c.uid, frame_id := c.frame_id, timestamp := c.timestamp,
            data := joinData (fb.slots.set c.chunk_idx (some c)) }])
      else
        (aset buf c.frame_id
          { slots := fb.slots.set c.chunk_idx (some c), total := fb.total,
            csize := fb.csize, remaining := fb.remaining - 1 }, []) := by
  unfold place_chunk
  rw [hlook]
  simp only
  rw [if_neg (by simp [ht]), if_neg (by simp [hcs]),
    if_neg (not_le.mpr hidx), hslot]

theorem process_list_reassembles (uid fid K size ts : Nat)
    (ps : List (List Nat)) (b : UidBuf) (hps : ps.length = K)
    (hb : alookup b fid = none) (hcap : b.length < MAX_FRAMES_PER_CLIENT)
    (hsize : K * size ≤ MAX_FRAME_SIZE) :
    ∀ (cs : List VideoFrameChunk) (done : List Nat) (buf : UidBuf),
      (∀ c ∈ cs, chunk_matches uid fid K size ts ps c) →
      ((cs.map VideoFrameChunk.chunk_idx) ++ done).Perm (List.range K) →
      cs ≠ [] →
      ((done = [] ∧ buf = b) ∨
        (∃ slots, slots_ok K ps done slots ∧
          buf = aset b fid
            { slots := slots, total := K, csize := size,
              remaining := (K : Int) - done.length })) →
      process_list cs buf =
        (b, [{ uid := uid, frame_id := fid, timestamp := ts,
               data := ps.flatten }]) := by
  intro cs
  induction cs with
  | nil => intro done buf _ _ hne _; exact absurd rfl hne
  | cons c cs' ih =>
      intro done buf hmatch hperm _ hbuf
      obtain ⟨hmu, hmf, hmt, hmcs, hmts, hmd⟩ :=
        hmatch c (List.mem_cons_self c cs')
      have hidxK : c.chunk_idx < K := by
        have hmem : c.chunk_idx ∈ List.range K :=
          hperm.subset (by simp)
        exact List.mem_range.mp hmem
      have hnodup : (c.chunk_idx :: (cs'.map VideoFrameChunk.chunk_idx ++ done)).Nodup := by
        have h0 := (hperm.nodup_iff).mpr (List.nodup_range K)
        simpa using h0
      have hnotin : c.chunk_idx ∉ cs'.map VideoFrameChunk.chunk_idx ++ done :=
        (List.nodup_cons.mp hnodup).1
      have hnotdone : c.chunk_idx ∉ done :=
        fun h => hnotin (List.mem_append_right _ h)
      have hlen_eq : cs'.length + 1 + done.length = K := by
        have h0 := hperm.length_eq
        simp [List.length_range] at h0
        omega
      -- the state after placing chunk c
      rcases hbuf with ⟨rfl, hbufb⟩ | ⟨slots, hsl, hbufb⟩
      · -- first chunk of the frame: allocation path of _process_chunk
        rw [hbufb]
        have hlook : alookup b c.frame_id = none := by rw [hmf]; exact hb
        have hstep : process_chunk c b =
            place_chunk c (aset b c.frame_id
              { slots := List.replicate c.total_chunks none,
                total := c.total_chunks, csize := c.chunk_size,
                remaining := (c.total_chunks : Int) }) := by
          unfold process_chunk
          rw [hlook]
          simp only
          rw [if_neg (by omega), if_neg (by rw [hmt, hmcs]; omega)]
        have hlook2 : alookup (aset b c.frame_id
            { slots := List.replicate c.total_chunks none,
              total := c.total_chunks, csize := c.chunk_size,
              remaining := (c.total_chunks : Int) }) c.frame_id =
            some { slots := List.replicate c.total_chunks none,
                   total := c.total_chunks, csize := c.chunk_size,
                   remaining := (c.total_chunks : Int) } :=
          alookup_aset_self _ _ _
        have hslot0 : (List.replicate c.total_chunks
            (none : Option VideoFrameChunk)).get? c.chunk_idx = some none := by
          rw [List.get?_eq_getElem?, List.getElem?_replicate]
          simp only [hmt]
          simp [hidxK]
        rw [place_chunk_step c _ _ hlook2 rfl rfl (by rw [hmt]; exact hmt ▸ hidxK) hslot0] at hstep
        -- slots after the first placement
        have hsl1 : slots_ok K ps [c.chunk_idx]
            ((List.replicate c.total_chunks none).set c.chunk_idx (some c)) := by
          rw [hmt]
          exact slots_ok_set K ps [] _ c.chunk_idx c (slots_ok_replicate K ps)
            hidxK hmd
        by_cases hcs' : cs' = []
        · -- single-chunk frame: completion on the first chunk
          subst hcs'
          have hK1 : K = 1 := by
            have h0 := hlen_eq
            simp at h0
            omega
          have hrem : (c.total_chunks : Int) - 1 = 0 := by
            rw [hmt, hK1]
            norm_num
          rw [if_pos hrem] at hstep
          have hcov : ∀ i, i < K → i ∈ [c.chunk_idx] := by
            intro i hi
            have : i = 0 := by omega
            have hci : c.chunk_idx = 0 := by omega
            simp [this, hci]
          have hjoin : joinData ((List.replicate c.total_chunks none).set
              c.chunk_idx (some c)) = ps.flatten :=
            joinData_complete K ps [c.chunk_idx] _ hps hsl1 hcov
          have hclean : aerase (aset (aset b c.frame_id
              { slots := List.replicate c.total_chunks none,
                total := c.total_chunks, csize := c.chunk_size,
                remaining := (c.total_chunks : Int) }) c.frame_id
              { slots := (List.replicate c.total_chunks none).set c.chunk_idx
                  (some c),
                total := c.total_chunks, csize := c.chunk_size,
                remaining := (c.total_chunks : Int) - 1 }) c.frame_id = b := by
            rw [aset_aset, aerase_aset_self, aerase_of_alookup_none _ _ hlook]
          simp only [process_list]
          rw [hstep]
          simp only [process_list]
          rw [hclean]
          simp [hmu, hmf, hmts, hjoin]
        · -- further chunks remain: the slot stays partial
          have hcslen : 1 ≤ cs'.length := by
            rcases Nat.eq_zero_or_pos cs'.length with h0 | h0
            · exact absurd (List.length_eq_zero.mp h0) hcs'
            · omega
          have hrem : ¬ ((c.total_chunks : Int) - 1 = 0) := by
            rw [hmt]
            have : 2 ≤ K := by omega
            omega
          rw [if_neg hrem] at hstep
          have hperm2 : (c.chunk_idx :: cs'.map VideoFrameChunk.chunk_idx).Perm
              (List.range K) := by
            simpa using hperm
          have hperm' : ((cs'.map VideoFrameChunk.chunk_idx) ++ [c.chunk_idx]).Perm
              (List.range K) :=
            (List.perm_append_singleton _ _).trans hperm2
          have hrec := ih [c.chunk_idx]
            (aset b c.frame_id
              { slots := (List.replicate c.total_chunks none).set c.chunk_idx
                  (some c),
                total := c.total_chunks, csize := c.chunk_size,
                remaining := (c.total_chunks : Int) - 1 })
            (fun d hd => hmatch d (List.mem_cons_of_mem c hd)) hperm' hcs'
            (Or.inr ⟨(List.replicate c.total_chunks none).set c.chunk_idx
              (some c), hsl1, by
                rw [hmf, hmt, hmcs]
                simp⟩)
          simp only [process_list]
          rw [hstep]
          simp only [process_list]
          rw [aset_aset]
          rw [hrec]
          simp
      · -- later chunk: the slot already exists and is partial
        rw [hbufb]
        have hlook2 : alookup (aset b fid
            { slots := slots, total := K, csize := size,
              remaining := (K : Int) - done.length }) c.frame_id =
            some { slots := slots, total := K, csize := size,
                   remaining := (K : Int) - done.length } := by
          rw [hmf]
          exact alookup_aset_self _ _ _
        have hslotc : slots.get? c.chunk_idx = some none :=
          (hsl.2 c.chunk_idx hidxK).2 hnotdone
        have hstep : process_chunk c (aset b fid
            { slots := slots, total := K, csize := size,
              remaining := (K : Int) - done.length }) =
            place_chunk c (aset b fid
              { slots := slots, total := K, csize := size,
                remaining := (K : Int) - done.length }) := by
          unfold process_chunk
          rw [hlook2]
        rw [place_chunk_step c _ _ hlook2 hmt hmcs (by simpa using hidxK)
          hslotc] at hstep
        rw [hmf] at hstep
        have hsl2 : slots_ok K ps (c.chunk_idx :: done)
            (slots.set c.chunk_idx (some c)) :=
          slots_ok_set K ps done slots c.chunk_idx c hsl hidxK hmd
        by_cases hcs' : cs' = []
        · -- this chunk completes the frame
          subst hcs'
          have hdlen : done.length + 1 = K := by
            have h0 := hlen_eq
            simp at h0
            omega
          have hrem : (K : Int) - ↑done.length - 1 = 0 := by omega
          rw [if_pos hrem] at hstep
          have hperm2 : (c.chunk_idx :: done).Perm (List.range K) := by
            simpa using hperm
          have hcov : ∀ i, i < K → i ∈ c.chunk_idx :: done := by
            intro i hi
            exact hperm2.mem_iff.mpr (List.mem_range.mpr hi)
          have hjoin : joinData (slots.set c.chunk_idx (some c)) = ps.flatten :=
            joinData_complete K ps (c.chunk_idx :: done) _ hps hsl2 hcov
          have hclean : aerase (aset (aset b fid
              { slots := slots, total := K, csize := size,
                remaining := (K : Int) - done.length }) fid
              { slots := slots.set c.chunk_idx (some c), total := K,
                csize := size,
                remaining := (K : Int) - ↑done.length - 1 }) fid = b := by
            rw [aset_aset, aerase_aset_self, aerase_of_alookup_none _ _ hb]
          simp only [process_list]
          rw [hstep]
          simp only [process_list]
          rw [hclean]
          simp [hmu, hmf, hmts, hjoin]
        · -- chunks still missing: recurse with the grown done-set
          have hcslen : 1 ≤ cs'.length := by
            rcases Nat.eq_zero_or_pos cs'.length with h0 | h0
            · exact absurd (List.length_eq_zero.mp h0) hcs'
            · omega
          have hrem : ¬ ((K : Int) - ↑done.length - 1 = 0) := by omega
          rw [if_neg hrem] at hstep
          have hperm3 : (c.chunk_idx ::
              (cs'.map VideoFrameChunk.chunk_idx ++ done)).Perm
              (List.range K) := by
            simpa using hperm
          have hperm' : ((cs'.map VideoFrameChunk.chunk_idx) ++
              (c.chunk_idx :: done)).Perm (List.range K) :=
            List.perm_middle.trans hperm3
          have hrec := ih (c.chunk_idx :: done)
            (aset b fid
              { slots := slots.set c.chunk_idx (some c), total := K,
                csize := size, remaining := (K : Int) - ↑done.length - 1 })
            (fun d hd => hmatch d (List.mem_cons_of_mem c hd)) hperm' hcs'
            (Or.inr ⟨slots.set c.chunk_idx (some c), hsl2, by
              congr 1
              simp only [List.length_cons]
              push_cast
              ring_nf⟩)
          simp only [process_list]
          rw [hstep]
          simp only [process_list]
          rw [aset_aset]
          rw [hrec]
          simp

theorem broadcast_frame_eq (f : AssembledFrame) (clients : List ClientVideoInfo) :
    broadcast_frame f clients =
      (clients.filter (fun c => c.uid ≠ f.uid)).map
        (fun c => ((c.address.1, c.receive_port),
                   u32be f.uid ++ u64be f.timestamp ++ f.data)) := by
  induction clients with
  | nil => rfl
  | cons c rest ih =>
      by_cases h : c.uid = f.uid <;>
        simp [broadcast_frame, h, ih, List.filter_cons]

end VideoSrv

/-- C8: starting from any per-uid reassembly buffer that does not yet hold
this frame id, has room under the per-client cap, and whose declared
total size fits the frame cap, processing the frame's K consistent chunks
(distinct indices covering 0..K−1, arriving in any order) produces exactly
one assembled frame whose bytes are the chunk payloads concatenated in
index order, returns the buffer to its original state (the slot is
deleted), and the fan-out loop sends that frame to every registered video
client except the sending uid, at each client's advertised receive port. -/
theorem video_reassembly_fanout (uid fid K size ts : Nat)
    (ps : List (List Nat)) (b : VideoSrv.UidBuf)
    (cs : List VideoSrv.VideoFrameChunk)
    (clients : List VideoSrv.ClientVideoInfo)
    (hps : ps.length = K) (hK : 0 < K)
    (hnew : alookup b fid = none)
    (hcap : b.length < VideoSrv.MAX_FRAMES_PER_CLIENT)
    (hsize : K * size ≤ VideoSrv.MAX_FRAME_SIZE)
    (hmatch : ∀ c ∈ cs, VideoSrv.chunk_matches uid fid K size ts ps c)
    (hperm : (cs.map VideoSrv.VideoFrameChunk.chunk_idx).Perm
      (List.range K)) :
    VideoSrv.process_list cs b =
      (b, [{ uid := uid, frame_id := fid, timestamp := ts,
             data := ps.flatten }]) ∧
    VideoSrv.broadcast_frame
        { uid := uid, frame_id := fid, timestamp := ts, data := ps.flatten }
        clients =
      (clients.filter (fun c => c.uid ≠ uid)).map
        (fun c => ((c.address.1, c.receive_port),
                   u32be uid ++ u64be ts ++ ps.flatten)) := by
  constructor
  · have hne : cs ≠ [] := by
      intro h
      subst h
      have h0 := hperm.length_eq
      simp [List.length_range] at h0
      omega
    exact VideoSrv.process_list_reassembles uid fid K size ts ps b hps hnew
      hcap hsize cs [] b hmatch (by simpa using hperm) hne (Or.inl ⟨rfl, rfl⟩)
  · simpa using VideoSrv.broadcast_frame_eq
      { uid := uid, frame_id := fid, timestamp := ts, data := ps.flatten }
      clients

/-- C8 witness: a 2-chunk frame from uid 7 arriving out of order ([1, 0])
is assembled into [9, 8] and sent only to the other registered client
(uid 8) at its advertised receive port. -/
theorem video_reassembly_fanout_witness :
    VideoSrv.process_list
      [{ uid := 7, frame_id := 42, chunk_idx := 1, total_chunks := 2,
         seq := 0, timestamp := 5, chunk_size := 1, data := [8] },
       { uid := 7, frame_id := 42, chunk_idx := 0, total_chunks := 2,
         seq := 0, timestamp := 5, chunk_size := 1, data := [9] }] [] =
      ([], [{ uid := 7, frame_id := 42, timestamp := 5, data := [9, 8] }]) ∧
    VideoSrv.broadcast_frame
        { uid := 7, frame_id := 42, timestamp := 5, data := [9, 8] }
        [{ uid := 7, address := ("10.0.0.7", 1), receive_port := 7001,
           last_packet_time := 0 },
         { uid := 8, address := ("10.0.0.8", 1), receive_port := 8001,
           last_packet_time := 0 }] =
      [(("10.0.0.8", 8001), u32be 7 ++ u64be 5 ++ [9, 8])] := by
  have h := video_reassembly_fanout 7 42 2 1 5 [[9], [8]] []
    [{ uid := 7, frame_id := 42, chunk_idx := 1, total_chunks := 2,
       seq := 0, timestamp := 5, chunk_size := 1, data := [8] },
     { uid := 7, frame_id := 42, chunk_idx := 0, total_chunks := 2,
       seq := 0, timestamp := 5, chunk_size := 1, data := [9] }]
    [{ uid := 7, address := ("10.0.0.7", 1), receive_port := 7001,
       last_packet_time := 0 },
     { uid := 8, address := ("10.0.0.8", 1), receive_port := 8001,
       last_packet_time := 0 }]
    (by decide) (by decide) (by decide) (by decide) (by decide) (by decide)
    (by decide)
  simpa using h

/-! ### C1 — present-start reply and broadcast -/

/-- C1: on `present-start` from a user with no active presentation the
server does send the `screen_share_ports` reply, but the `present-start`
broadcast is never emitted: `create_present_start_broadcast_message` reads
`MessageTypes.PRESENT_START_BROADCAST`, an attribute `class MessageTypes`
never defines, so it raises `AttributeError`; the handler's `except` branch
then deletes the fresh presentation and sends a failure error to the
presenter.  Evaluated at a concrete two-user state: uid 2 receives nothing
and no `present_start` message exists in the output. -/
theorem present_start_broadcast_never_sent :
    ScreenSrv.messageTypesAttr "PRESENT_START_BROADCAST" = none ∧
    ScreenSrv.handle_present_start 1 (some "demo")
      { presentations := [], next_ephemeral_port := 11001,
        participants := [(1, "alice"), (2, "bob")] } [1, 2] =
      ({ presentations := [], next_ephemeral_port := 11003,
         participants := [(1, "alice"), (2, "bob")] },
       [(1, ScreenSrv.ScreenMsg.screen_share_ports 11001 11002),
        (1, ScreenSrv.ScreenMsg.error
              "Failed to start screen sharing: AttributeError")]) := by
  constructor
  · rfl
  · decide

/-! ### C2 — upload path sanitization -/

/-- C2: `handle_file_upload` opens `self.upload_dir / filename` with the
client-supplied filename joined verbatim — no directory components are
stripped.  For the filename `"../evil.txt"` the code's path keeps the `..`
segment and resolves outside the upload directory, while the path the claim
describes (`join(upload-dir, basename(filename))`) stays inside it; the two
differ. -/
theorem upload_path_not_sanitized :
    FileSrv.upload_path_code "uploads" "../evil.txt" =
      { absolute := false, parts := ["uploads", "..", "evil.txt"] } ∧
    FileSrv.upload_path_claim "uploads" "../evil.txt" =
      { absolute := false, parts := ["uploads", "evil.txt"] } ∧
    FileSrv.upload_path_code "uploads" "../evil.txt" ≠
      FileSrv.upload_path_claim "uploads" "../evil.txt" ∧
    PyPath.normalizeParts
      (FileSrv.upload_path_code "uploads" "../evil.txt").parts =
      ["evil.txt"] := by
  refine ⟨by decide, by decide, by decide, by decide⟩

/-! ### C6 — control-channel error handling -/

/-- C6 (amended): for a line within the 1 MiB limit, malformed JSON
(`json.JSONDecodeError`) is answered with the `error` reply
"Malformed JSON" and the connection stays open; but a line whose `type`
is an unknown string, or is missing, empty, or not a string at all, is
silently skipped — no `error` reply is sent — with the connection equally
kept open.  (The claim said unknown/invalid types also get an `error`
reply.) -/
theorem control_step_error_policy (lineLen : Nat)
    (hlen : lineLen ≤ 1024 * 1024) (j : ControlSrv.PyJson) :
    (ControlSrv.control_step lineLen ControlSrv.LineDecode.jsonError =
       ControlSrv.ControlAction.replyError "Malformed JSON" ∧
     ControlSrv.action_keeps_connection
       (ControlSrv.control_step lineLen ControlSrv.LineDecode.jsonError) =
       true) ∧
    (∀ s, ControlSrv.py_get_type j = some (ControlSrv.PyJson.str s) →
       s ≠ "" → s ∉ ControlSrv.known_types → s ≠ "logout" →
       ControlSrv.control_step lineLen (ControlSrv.LineDecode.ok j) =
         ControlSrv.ControlAction.ignore) ∧
    (∀ t, ControlSrv.py_get_type j = some t →
       ControlSrv.is_valid_msg_type t = false →
       ControlSrv.control_step lineLen (ControlSrv.LineDecode.ok j) =
         ControlSrv.ControlAction.ignore) ∧
    (ControlSrv.py_get_type j = none →
       ControlSrv.control_step lineLen (ControlSrv.LineDecode.ok j) =
         ControlSrv.ControlAction.ignore) ∧
    ControlSrv.action_keeps_connection
      (ControlSrv.control_step lineLen (ControlSrv.LineDecode.ok j)) =
      (ControlSrv.control_step lineLen (ControlSrv.LineDecode.ok j) ≠
        ControlSrv.ControlAction.dispatchClose) := by
  have hnl : ¬ lineLen > 1024 * 1024 := by omega
  refine ⟨⟨?_, ?_⟩, ?_, ?_, ?_, ?_⟩
  · simp [ControlSrv.control_step, hnl]
  · simp [ControlSrv.control_step, hnl, ControlSrv.action_keeps_connection]
  · intro s hty hne hnk hnlog
    have hlen0 : ¬ s.length = 0 := by
      intro h0
      apply hne
      cases s with
      | mk data =>
          have hd : data = [] := List.length_eq_zero.mp
            (by simpa [String.length] using h0)
          subst hd
          rfl
    simp [ControlSrv.control_step, hnl, hty, hlen0, hnk, hnlog]
  · intro t hty hval
    cases t <;> simp [ControlSrv.is_valid_msg_type] at hval <;>
      simp [ControlSrv.control_step, hnl, hty, hval]
  · intro hty
    simp [ControlSrv.control_step, hnl, hty]
  · simp only [ControlSrv.control_step, hnl, if_false]
    cases hj : ControlSrv.py_get_type j with
    | none => simp [ControlSrv.action_keeps_connection]
    | some t =>
        cases t <;>
          simp [ControlSrv.action_keeps_connection] <;>
          split_ifs <;>
          simp [ControlSrv.action_keeps_connection]

/-- C6 witness: a well-formed object line with the unknown type "bogus"
is skipped without any reply. -/
theorem control_step_error_policy_witness :
    ControlSrv.control_step 10
      (ControlSrv.LineDecode.ok
        (ControlSrv.PyJson.obj [("type", ControlSrv.PyJson.str "bogus")])) =
      ControlSrv.ControlAction.ignore := by
  exact (control_step_error_policy 10 (by omega)
    (ControlSrv.PyJson.obj [("type", ControlSrv.PyJson.str "bogus")])).2.1
    "bogus" rfl (by decide) (by decide) (by decide)

/-- C6 counterexample: the line `{"type": "nonsense"}` is well under the
size limit and parses, but the server sends no `error` reply — the loop
action is to ignore the line, while the claim requires an `error` reply for
an unknown type. -/
theorem control_step_unknown_type_no_reply :
    ControlSrv.control_step 24
      (ControlSrv.LineDecode.ok
        (ControlSrv.PyJson.obj [("type", ControlSrv.PyJson.str "nonsense")])) =
      ControlSrv.ControlAction.ignore := by
  rfl

/-! ### C9 — unicast to a missing target -/

/-- C9 (amended): a unicast request whose nonzero target uid is not a
registered participant draws exactly one `error` reply of the form
"User with uid=(target) not found" to the sender, nothing is delivered to
anyone else, and the chat state — including the history ring — is
unchanged.  (For a target uid of 0, which is also never registered, Python
truthiness routes the request to the "Missing target_uid for unicast"
error instead, so the claim's universal form fails at 0.) -/
theorem unicast_unknown_target (st : ChatSrv.ChatState) (clients : List Nat)
    (uid t : Nat) (text now : String) (ht : t ≠ 0)
    (hmiss : alookup st.participants t = none) (hconn : uid ∈ clients) :
    ChatSrv.handle_unicast uid (some t) text now st clients =
      (st, [(uid, ChatSrv.ChatMsg.error
        ("User with uid=" ++ toString t ++ " not found"))]) := by
  have hfal : ChatSrv.py_falsy (some t) = false := by
    cases t with
    | zero => exact absurd rfl ht
    | succ n => rfl
  simp [ChatSrv.handle_unicast, hfal, hmiss, send_to, hconn]

/-- C9 witness: uid 1 unicasts to the unregistered uid 999 and gets exactly
the not-found error back, with the state untouched. -/
theorem unicast_unknown_target_witness :
    ChatSrv.handle_unicast 1 (some 999) "hey" "t1"
      { participants := [(1, { uid := 1, username := "alice",
                               joined_at := "t0" })], chat_history := [] }
      [1] =
      ({ participants := [(1, { uid := 1, username := "alice",
                                joined_at := "t0" })], chat_history := [] },
       [(1, ChatSrv.ChatMsg.error "User with uid=999 not found")]) := by
  have h := unicast_unknown_target
    { participants := [(1, { uid := 1, username := "alice",
                             joined_at := "t0" })], chat_history := [] }
    [1] 1 999 "hey" "t1" (by decide) (by decide) (by decide)
  simpa using h

/-- C9 counterexample: a unicast to target uid 0 — a uid that is never
registered, since uid issue starts at 1 — is answered with the error
"Missing target_uid for unicast", not with the claimed
"User with uid=0 not found" form (Python treats the field value 0 as
missing). -/
theorem unicast_target_zero_different_error :
    ChatSrv.handle_unicast 1 (some 0) "hey" "t1"
      { participants := [(1, { uid := 1, username := "alice",
                               joined_at := "t0" })], chat_history := [] }
      [1] =
      ({ participants := [(1, { uid := 1, username := "alice",
                                joined_at := "t0" })], chat_history := [] },
       [(1, ChatSrv.ChatMsg.error "Missing target_uid for unicast")]) ∧
    alookup
      ([(1, { uid := 1, username := "alice", joined_at := "t0" })] :
        List (Nat × ChatSrv.Participant)) 0 = none ∧
    ("Missing target_uid for unicast" : String) ≠
      "User with uid=" ++ toString (0 : Nat) ++ " not found" := by
  refine ⟨by decide, by decide, by decide⟩

/-! ### C10 — history replays unicasts to everyone -/

theorem mem_ring_append (hist : List ChatSrv.HistMsg) (m : ChatSrv.HistMsg) :
    m ∈ ChatSrv.ring_append hist m := by
  unfold ChatSrv.ring_append
  split_ifs <;> simp

/-- C10: a successful unicast from A to a registered B stores the stamped
record — sender uid and name, target uid and name, text — in the chat ring,
and a `get_history` request from any connected client C (in particular one
that is neither sender nor target) is answered with the entire ring, so the
record is returned to C without any filtering by requester. -/
theorem unicast_visible_in_history (st : ChatSrv.ChatState)
    (clients : List Nat) (A B : Nat) (x now : String)
    (pB : ChatSrv.Participant) (C : Nat)
    (hB : alookup st.participants B = some pB) (hBnz : B ≠ 0)
    (hC : C ∈ clients) :
    (ChatSrv.HistMsg.unicast A (ChatSrv.username_of st.participants A) B
        pB.username x now) ∈
      ((ChatSrv.handle_unicast A (some B) x now st clients).1).chat_history ∧
    ChatSrv.handle_get_history C
        (ChatSrv.handle_unicast A (some B) x now st clients).1 clients =
      ((ChatSrv.handle_unicast A (some B) x now st clients).1,
       [(C, ChatSrv.ChatMsg.history
          ((ChatSrv.handle_unicast A (some B) x now st clients).1).chat_history
          ((ChatSrv.handle_unicast A (some B) x now st clients).1).chat_history.length)]) := by
  have hfal : ChatSrv.py_falsy (some B) = false := by
    cases B with
    | zero => exact absurd rfl hBnz
    | succ n => rfl
  constructor
  · simp only [ChatSrv.handle_unicast, hfal, Bool.false_eq_true, if_false,
      Option.getD_some, hB]
    exact mem_ring_append _ _
  · simp [ChatSrv.handle_get_history, send_to, hC]

/-! ### C7 — upload completion, advertisement, and partial-file cleanup -/

theorem upload_loop_spec (expected : Nat) (stream : List Nat) (received : Nat)
    (content : List Nat) :
    FileSrv.upload_loop expected stream received content =
      (received + min (expected - received) stream.length,
       content ++ stream.take (expected - received)) := by
  induction stream, received, content using FileSrv.upload_loop.induct expected with
  | case1 stream received content h1 hdata =>
      have hk : 1 ≤ min FileSrv.CHUNK_SIZE (expected - received) := by
        simp only [le_min_iff]
        exact ⟨by simp [FileSrv.CHUNK_SIZE], by omega⟩
      have hstream : stream = [] := by
        rcases List.take_eq_nil_iff.mp hdata with h | h
        · omega
        · exact h
      subst hstream
      rw [FileSrv.upload_loop]
      simp [h1]
  | case2 stream received content h1 hdata ih =>
      rw [FileSrv.upload_loop]
      simp only [if_pos h1, if_neg hdata]
      rw [ih]
      have hd : (stream.take (min FileSrv.CHUNK_SIZE (expected - received))).length =
          min (min FileSrv.CHUNK_SIZE (expected - received)) stream.length :=
        List.length_take _ _
      rw [Prod.mk.injEq]
      constructor
      · simp only [List.length_drop, hd]
        omega
      · simp only [List.append_assoc, List.length_drop, hd]
        congr 1
        by_cases hc : stream.length ≤ min FileSrv.CHUNK_SIZE (expected - received)
        · have h2 : stream.take (min FileSrv.CHUNK_SIZE (expected - received)) =
              stream := List.take_of_length_le hc
          have h3 : stream.drop (min FileSrv.CHUNK_SIZE (expected - received)) =
              [] := List.drop_eq_nil_of_le hc
          rw [h2, h3]
          have h4 : stream.take (expected - received) = stream :=
            List.take_of_length_le (by omega)
          simp [h4]
        · push_neg at hc
          have hklt : min FileSrv.CHUNK_SIZE (expected - received) ≤
              expected - received := min_le_right _ _
          have hmin : min (min FileSrv.CHUNK_SIZE (expected - received))
              stream.length = min FileSrv.CHUNK_SIZE (expected - received) :=
            min_eq_left hc.le
          rw [hmin]
          have harith : expected -
              (received + min FileSrv.CHUNK_SIZE (expected - received)) =
              expected - received -
                min FileSrv.CHUNK_SIZE (expected - received) := by
            omega
          rw [harith, ← List.take_add]
          congr 1
          omega
  | case3 stream received content h1 =>
      rw [FileSrv.upload_loop]
      simp only [if_neg h1]
      have h0 : expected - received = 0 := by omega
      simp [h0]

/-- C7: an upload session for B offered bytes registers the file and
broadcasts `file-available` exactly when the connection delivered at least
B bytes, in which case exactly B bytes are on disk (the loop never reads
past B); on a short stream the partial file is deleted, nothing is
broadcast, and the file table is unchanged. -/
theorem file_upload_advertise_iff (upload_dir : String)
    (sess : FileSrv.UploadSession) (stream : List Nat)
    (files : List (String × FileSrv.FileMeta)) (now : String) :
    (sess.size ≤ stream.length →
       FileSrv.handle_file_upload upload_dir sess stream files now =
         (some (stream.take sess.size),
          aset files sess.fid
            { fid := sess.fid, filename := sess.filename, size := sess.size,
              uploader := sess.uploader, uploader_uid := sess.uid,
              path := FileSrv.upload_path_code upload_dir sess.filename,
              uploaded_at := now },
          [FileSrv.FSMsg.file_available sess.fid sess.filename sess.size
             sess.uploader])) ∧
    (stream.length < sess.size →
       FileSrv.handle_file_upload upload_dir sess stream files now =
         (none, files, [])) := by
  constructor
  · intro h
    have hmin : min sess.size stream.length = sess.size := min_eq_left h
    simp [FileSrv.handle_file_upload, upload_loop_spec, hmin]
  · intro h
    have hmin : min sess.size stream.length = stream.length := min_eq_right h.le
    have hne : stream.length ≠ sess.size := by omega
    simp [FileSrv.handle_file_upload, upload_loop_spec, hmin, hne]

/-- C7 witness: a 3-byte offer whose connection delivers exactly 3 bytes is
registered and advertised with those 3 bytes on disk. -/
theorem file_upload_advertise_iff_witness :
    FileSrv.handle_file_upload "uploads"
      { fid := "f1", filename := "a.txt", size := 3, uploader := "alice",
        uid := 1, port := 10001 } [10, 20, 30] [] "t9" =
      (some [10, 20, 30],
       [("f1", { fid := "f1", filename := "a.txt", size := 3,
                 uploader := "alice", uploader_uid := 1,
                 path := FileSrv.upload_path_code "uploads" "a.txt",
                 uploaded_at := "t9" })],
       [FileSrv.FSMsg.file_available "f1" "a.txt" 3 "alice"]) := by
  have h := (file_upload_advertise_iff "uploads"
    { fid := "f1", filename := "a.txt", size := 3, uploader := "alice",
      uid := 1, port := 10001 } [10, 20, 30] [] "t9").1 (by decide)
  simpa [aset] using h

/-- C10 witness: Alice (uid 1) unicasts "psst" to Bob (uid 2); Carol
(uid 3), neither sender nor target, requests the history and receives the
ring containing the full unicast record. -/
theorem unicast_visible_in_history_witness :
    (ChatSrv.HistMsg.unicast 1 "alice" 2 "bob" "psst" "t5") ∈
      ((ChatSrv.handle_unicast 1 (some 2) "psst" "t5"
        { participants := [(1, { uid := 1, username := "alice",
                                 joined_at := "t0" }),
                           (2, { uid := 2, username := "bob",
                                 joined_at := "t1" }),
                           (3, { uid := 3, username := "carol",
                                 joined_at := "t2" })],
          chat_history := [] } [1, 2, 3]).1).chat_history := by
  have h := unicast_visible_in_history
    { participants := [(1, { uid := 1, username := "alice",
                             joined_at := "t0" }),
                       (2, { uid := 2, username := "bob",
                             joined_at := "t1" }),
                       (3, { uid := 3, username := "carol",
                             joined_at := "t2" })],
      chat_history := [] } [1, 2, 3] 1 2 "psst" "t5"
    { uid := 2, username := "bob", joined_at := "t1" } 3
    (by decide) (by decide) (by decide)
  simpa [ChatSrv.username_of, alookup] using h.1

end CN
